import Mathlib

/-!
# Prism2 — verification of the hardware/protocol core

Shallow embedding of the Prism2 repository (NI-845x ctypes wrapper,
protocol hex parser, mock hardware handler, and the main view model
façade), together with theorems settling the specification claims.

Source files embedded:
* `src/prism2/hardware/ni845x.py` — `_HandleManager.close`,
  `Ni845x.find_devices`, `Ni845x.spi_write_read`
* `src/prism2/hardware/mock_handler.py` — `MockHardwareHandler`
* `src/prism2/protocol/parser.py` — `PROTOCOL_DEFINITIONS`, `parse_hex_data`
* `src/prism2/view_models/main_view_model.py` — `MainViewModel.connect_device`,
  `MainViewModel.send_spi_command`
-/

namespace Prism2

/-! ## Hex decoding (Python `bytes.fromhex`)

`bytes.fromhex` accepts two hexadecimal digits per byte and skips ASCII
whitespace characters (space, tab, LF, VT, FF, CR) between byte pairs;
any other character, whitespace inside a digit pair, or a trailing lone
digit raises `ValueError`.
-/

/-- Value of a single hexadecimal digit, `none` for non-hex characters
(the character classes accepted by CPython's `_PyBytes_FromHex`). -/
def hexDigitVal (c : Char) : Option Nat :=
  if '0' ≤ c ∧ c ≤ '9' then some (c.toNat - '0'.toNat)
  else if 'a' ≤ c ∧ c ≤ 'f' then some (c.toNat - 'a'.toNat + 10)
  else if 'A' ≤ c ∧ c ≤ 'F' then some (c.toNat - 'A'.toNat + 10)
  else none

/-- A character is a hexadecimal digit exactly when `hexDigitVal` accepts it. -/
def isHexChar (c : Char) : Bool :=
  (hexDigitVal c).isSome

/-- ASCII whitespace as recognized by CPython's `Py_ISSPACE` and skipped
by `bytes.fromhex` between digit pairs: space (32), tab (9), LF (10),
VT (11), FF (12), CR (13). -/
def isPySpace (c : Char) : Bool :=
  if c.toNat = 32 ∨ (9 ≤ c.toNat ∧ c.toNat ≤ 13) then true else false

/-- `bytes.fromhex` on a list of characters: skip ASCII whitespace
before each byte, then require two consecutive hex digits. Returns
`none` where Python raises `ValueError`. -/
def fromhexAux : List Char → Option (List Nat)
  | [] => some []
  | c :: rest =>
    if isPySpace c then fromhexAux rest
    else
      match hexDigitVal c with
      | none => none
      | some hi =>
        match rest with
        | [] => none
        | c2 :: rest2 =>
          match hexDigitVal c2 with
          | none => none
          | some lo => (fromhexAux rest2).map (fun bs => (16 * hi + lo) :: bs)

/-- Python `bytes.fromhex` on a string. -/
def fromhex (s : String) : Option (List Nat) :=
  fromhexAux s.data

/-- Python `str.upper()` on a string, character by character (the opcode
keys are ASCII). -/
def upperStr (s : String) : String :=
  String.mk (s.data.map Char.toUpper)

/-- Python `bytes.hex().upper()` for one byte: two uppercase hex digits. -/
def hexDigitUpper (n : Nat) : Char :=
  if n < 10 then Char.ofNat ('0'.toNat + n) else Char.ofNat ('A'.toNat + (n - 10))

/-- One byte rendered as two uppercase hex characters. -/
def byteToHex (b : Nat) : String :=
  String.mk [hexDigitUpper (b / 16 % 16), hexDigitUpper (b % 16)]

/-- A byte list rendered as an uppercase hex string (`data.hex().upper()`). -/
def bytesToHexUpper (bs : List Nat) : String :=
  String.join (bs.map byteToHex)

/-! ## `_HandleManager` (ni845x.py lines 222–245)

```python
def close(self):
    if self._handle and not self._closed:
        status = self._close_func(self._handle)
        _check_error(status, self._close_func.__name__)
        self._handle = None
        self._closed = True
```

The handle field holds either `None` or a ctypes integer whose truthiness
is "value ≠ 0"; `_check_error` raises `Ni845xError` on nonzero status,
*before* the two assignments run.
-/

/-- State of a `_HandleManager`: the `_handle` field (`none` models Python
`None`, `some v` a ctypes handle of value `v`) and the `_closed` flag. -/
structure HandleManager where
  handle : Option Nat
  closed : Bool
deriving DecidableEq, Repr

/-- Result of one `close()` call: the state afterwards, the status code of
the raised `Ni845xError` if any, and how many times the bound close
function was invoked during the call. -/
structure CloseResult where
  state : HandleManager
  error : Option Int
  calls : Nat
deriving DecidableEq, Repr

/-- `_HandleManager.close`, with the bound release function `cf` passed
explicitly (it returns the driver status code). An exception raised by
`_check_error` aborts the method before `_handle`/`_closed` are assigned. -/
def HandleManager.close (m : HandleManager) (cf : Nat → Int) : CloseResult :=
  match m.handle, m.closed with
  | some v, false =>
    if v ≠ 0 then
      let status := cf v
      if status ≠ 0 then ⟨m, some status, 1⟩
      else ⟨⟨none, true⟩, none, 1⟩
    else ⟨m, none, 0⟩
  | _, _ => ⟨m, none, 0⟩

/-! ## Protocol parser (parser.py)

`PROTOCOL_DEFINITIONS` maps the first hex byte (as a two-character
uppercase string) to a command definition with ordered command fields and
response fields; a field length of `-1` in the source means "the rest of
the data" and is modelled by `FieldLen.remainder`.
-/

/-- Declared length of a schema field: a fixed byte count, or the
source's `-1` meaning "the rest of the data". -/
inductive FieldLen where
  | fixed (n : Nat)
  | remainder
deriving DecidableEq, Repr

/-- One entry of `PROTOCOL_DEFINITIONS`: display name plus the ordered
command-direction and response-direction field lists. -/
structure CommandDef where
  name : String
  fields : List (String × FieldLen)
  response : List (String × FieldLen)
deriving DecidableEq, Repr

/-- The `"default"` entry of `PROTOCOL_DEFINITIONS`. -/
def defaultDef : CommandDef :=
  { name := "Unknown Command"
    fields := [("Data", FieldLen.remainder)]
    response := [("Data", FieldLen.remainder)] }

/-- The static `PROTOCOL_DEFINITIONS` table keyed by the first two
characters of the hex string, uppercased. -/
def PROTOCOL_DEFINITIONS : List (String × CommandDef) :=
  [ ("01", { name := "Read Status Register"
             fields := [("Command", FieldLen.fixed 1), ("Dummy Byte", FieldLen.fixed 1)]
             response := [("Status", FieldLen.fixed 1), ("Dummy Byte", FieldLen.fixed 1)] })
  , ("06", { name := "Write Enable"
             fields := [("Command", FieldLen.fixed 1)]
             response := [] })
  , ("C7", { name := "Chip Erase"
             fields := [("Command", FieldLen.fixed 1)]
             response := [] })
  , ("default", defaultDef) ]

/-- `PROTOCOL_DEFINITIONS.get(key, PROTOCOL_DEFINITIONS["default"])`. -/
def lookupDef (key : String) : CommandDef :=
  (PROTOCOL_DEFINITIONS.lookup key).getD defaultDef

/-- The field map `parse_hex_data` selects for a hex string and
direction: `definition["fields"]` for a command, `definition["response"]`
for a response, with the definition looked up from the string's first two
characters uppercased. -/
def selectedFieldMap (s : String) (isCommand : Bool) : List (String × FieldLen) :=
  let d := lookupDef (upperStr (s.take 2))
  if isCommand then d.fields else d.response

/-- One recorded breakdown line: field name and the consumed byte slice. -/
structure Entry where
  name : String
  data : List Nat
deriving DecidableEq, Repr

/-- The field-walking loop of `parse_hex_data` (lines 71–81): starting at
`byte_cursor = c`, for each field take its slice of `bytes`, advance the
cursor (`-1` consumes to the end and sets the cursor to the length), and
`break` on an empty slice. Returns the recorded entries and the final
`byte_cursor`. -/
def walkFields : List (String × FieldLen) → List Nat → Nat → List Entry × Nat
  | [], _, c => ([], c)
  | (fname, flen) :: rest, bytes, c =>
    let (fieldData, newCursor) :=
      match flen with
      | FieldLen.remainder => (bytes.drop c, bytes.length)
      | FieldLen.fixed n => ((bytes.drop c).take n, c + n)
    if fieldData = [] then ([], newCursor)
    else
      let (es, fc) := walkFields rest bytes newCursor
      ({ name := fname, data := fieldData } :: es, fc)

/-- Structured form of the string `parse_hex_data` returns: the fixed
"No data to parse." text, the early "No response fields defined." text,
or a header line followed by field entries and an optional trailing
"Unparsed Data" line. -/
inductive ParseResult where
  | noData
  | noFields (defName : String)
  | breakdown (defName : String) (isCommand : Bool)
      (entries : List Entry) (unparsed : Option (List Nat))
deriving DecidableEq, Repr

/-- Total bytes recorded in the breakdown's field entries. -/
def ParseResult.consumed : ParseResult → Nat
  | ParseResult.breakdown _ _ entries _ => (entries.map (fun e => e.data.length)).sum
  | _ => 0

/-- Whether the result ends with an "Unparsed Data" entry. -/
def ParseResult.hasUnparsed : ParseResult → Bool
  | ParseResult.breakdown _ _ _ (some _) => true
  | _ => false

/-- `parse_hex_data(hex_string, is_command)`.  `Except.error ()` models
the `ValueError` escaping from `bytes.fromhex` on malformed input. -/
def parse_hex_data (s : String) (isCommand : Bool) : Except Unit ParseResult :=
  if s = "" then Except.ok ParseResult.noData
  else
    match fromhex s with
    | none => Except.error ()
    | some dataBytes =>
      let d := lookupDef (upperStr (s.take 2))
      let fieldMap := if isCommand then d.fields else d.response
      if fieldMap = [] then Except.ok (ParseResult.noFields d.name)
      else
        let ec := walkFields fieldMap dataBytes 0
        let unparsed :=
          if ec.2 < dataBytes.length then some (dataBytes.drop ec.2) else none
        Except.ok (ParseResult.breakdown d.name isCommand ec.1 unparsed)

/-! ## `Ni845x.find_devices` (ni845x.py lines 326–360)

The driver side of enumeration is abstracted as an oracle: the status and
count reported by `ni845xFindDevice`, the per-step results of
`ni845xFindDeviceNext`, and the status of `ni845xCloseFindDeviceHandle`.
-/

/-- Oracle for the enumeration primitives of the driver. -/
structure FindDriver where
  findStatus : Int
  numFound : Nat
  firstDevice : String
  nextStatus : Nat → Int
  nextDevice : Nat → String
  closeStatus : Int

/-- Outcome of `find_devices`: the returned list (or the status code of a
raised `Ni845xError`) and whether `ni845xCloseFindDeviceHandle` was
invoked before the method ended. -/
structure FindOutcome where
  result : Except Int (List String)
  closeCalled : Bool
deriving Repr

/-- The `for _ in range(num_found - 1)` loop collecting
`ni845xFindDeviceNext` results (`k` iterations remaining, `i` the index
of the current call). -/
def findNextLoop (d : FindDriver) : Nat → Nat → Except Int (List String)
  | 0, _ => Except.ok []
  | k + 1, i =>
    if d.nextStatus i ≠ 0 then Except.error (d.nextStatus i)
    else (findNextLoop d k (i + 1)).map (fun rest => d.nextDevice i :: rest)

/-- `Ni845x.find_devices`: returns `[]` when the DLL is not loaded; calls
find-first and raises on nonzero status; returns `[]` *without closing the
find handle* when zero devices are reported; otherwise collects
`num_found - 1` find-next results and closes the find handle. -/
def find_devices (dllLoaded : Bool) (d : FindDriver) : FindOutcome :=
  if ¬dllLoaded then ⟨Except.ok [], false⟩
  else if d.findStatus ≠ 0 then ⟨Except.error d.findStatus, false⟩
  else if d.numFound = 0 then ⟨Except.ok [], false⟩
  else
    match findNextLoop d (d.numFound - 1) 0 with
    | Except.error e => ⟨Except.error e, false⟩
    | Except.ok rest =>
      if d.closeStatus ≠ 0 then ⟨Except.error d.closeStatus, true⟩
      else ⟨Except.ok (d.firstDevice :: rest), true⟩

/-! ## `Ni845x.spi_write_read` (ni845x.py lines 377–404)

```python
write_size = len(write_data)
read_size = uInt32(write_size)
read_buffer = (uInt8 * write_size)()
status = ni845x_dll.ni845xSpiWriteRead(...)
_check_error(status, 'ni845xSpiWriteRead')
return bytes(read_buffer[:read_size.value])
```

The read buffer is allocated with exactly `write_size` cells; the driver
writes into it and sets `read_size`; the method returns the slice
`read_buffer[:read_size.value]` (a Python slice, clamped to the buffer).
-/

/-- Oracle for `ni845xSpiWriteRead`: its status, the read count it stores
into `read_size`, and the contents it leaves in the read buffer (cell by
cell). -/
structure SpiDriver where
  status : Int
  reportedCount : Nat
  readByte : Nat → Nat

/-- `Ni845x.spi_write_read`: on nonzero status raises; otherwise returns
the first `reportedCount` cells of the `len(write_data)`-cell read
buffer (the slice clamps at the buffer length). -/
def spi_write_read (d : SpiDriver) (writeData : List Nat) : Except Int (List Nat) :=
  if d.status ≠ 0 then Except.error d.status
  else Except.ok (((List.range writeData.length).map d.readByte).take d.reportedCount)

/-! ## `MockHardwareHandler` (mock_handler.py) -/

/-- State of the simulated backend: the `is_open` flag. -/
structure MockHardwareHandler where
  is_open : Bool
deriving DecidableEq, Repr

/-- `MockHardwareHandler.open_device`: sets the flag and returns `True`. -/
def MockHardwareHandler.open_device (_m : MockHardwareHandler) (_resourceName : String) :
    MockHardwareHandler × Bool :=
  (⟨true⟩, true)

/-- `MockHardwareHandler.close_device`: clears the flag. -/
def MockHardwareHandler.close_device (_m : MockHardwareHandler) : MockHardwareHandler :=
  ⟨false⟩

/-- `MockHardwareHandler.spi_transfer`: raises `ConnectionError` when no
device is open, otherwise returns the byte-reversed input (`data[::-1]`). -/
def MockHardwareHandler.spi_transfer (m : MockHardwareHandler) (data : List Nat) :
    Except String (List Nat) :=
  if ¬m.is_open then Except.error "No device is currently open."
  else Except.ok data.reverse

/-! ## `MainViewModel` façade (main_view_model.py)

Observable state is the five bound variables; the hardware handler is
abstracted as its `open_device` result (a `Bool`) and its `spi_transfer`
result (`none` models a failed transfer, i.e. `HardwareHandler` catching
`Ni845xError` and returning `None`).
-/

/-- Observable state of `MainViewModel`. -/
structure ViewModelState where
  deviceList : List String
  selectedDevice : String
  isConnected : Bool
  commandHistory : List (String × String)
  breakdownText : String
deriving DecidableEq, Repr

/-- `MainViewModel.connect_device` (lines 73–89): no-op when no device is
selected; otherwise sets `is_connected` to the handler's `open_device`
result. -/
def connect_device (openResult : Bool) (st : ViewModelState) : ViewModelState :=
  if st.selectedDevice = "" then st
  else if openResult then { st with isConnected := true }
  else { st with isConnected := false }

/-- `MainViewModel.send_spi_command` (lines 102–133), with the handler's
`spi_transfer` passed as `transfer`. Returns the new state and whether
the hardware transfer was invoked. Early exits: not connected, or
`bytes.fromhex` raised `ValueError`. On a successful transfer the pair
(original command string, uppercase response hex) is appended to the
history; on a failed transfer (`None`) nothing changes. -/
def send_spi_command (transfer : List Nat → Option (List Nat))
    (st : ViewModelState) (commandHex : String) : ViewModelState × Bool :=
  if ¬st.isConnected then (st, false)
  else
    match fromhex commandHex with
    | none => (st, false)
    | some commandBytes =>
      match transfer commandBytes with
      | some responseBytes =>
        ({ st with commandHistory :=
            st.commandHistory ++ [(commandHex, bytesToHexUpper responseBytes)] }, true)
      | none => (st, true)

/-! ## Specification-side predicates and helper lemmas -/

/-- An even-length hexadecimal string: the shape the hex-encoding
contract quantifies over. -/
def EvenHex (s : String) : Prop :=
  s.length % 2 = 0 ∧ ∀ c ∈ s.data, isHexChar c = true

instance (s : String) : Decidable (EvenHex s) := by
  unfold EvenHex; infer_instance

/-- A hexadecimal digit is never ASCII whitespace. -/
theorem isHexChar_not_pyspace {c : Char} (h : isHexChar c = true) :
    isPySpace c = false := by
  unfold isHexChar hexDigitVal at h
  unfold isPySpace
  split_ifs at h with h1 h2 h3
  · obtain ⟨ha, hb⟩ := h1
    have ha2 : 48 ≤ c.toNat := ha
    have hb2 : c.toNat ≤ 57 := hb
    split_ifs with hp
    · exfalso; omega
    · rfl
  · obtain ⟨ha, hb⟩ := h2
    have ha2 : 97 ≤ c.toNat := ha
    have hb2 : c.toNat ≤ 102 := hb
    split_ifs with hp
    · exfalso; omega
    · rfl
  · obtain ⟨ha, hb⟩ := h3
    have ha2 : 65 ≤ c.toNat := ha
    have hb2 : c.toNat ≤ 70 := hb
    split_ifs with hp
    · exfalso; omega
    · rfl
  · simp at h

/-- `bytes.fromhex` fails on any whitespace-free character list that has
odd length or contains a non-hex character (fuel-indexed form). -/
theorem fromhexAux_eq_none_aux (n : Nat) :
    ∀ l : List Char, l.length ≤ n → (∀ c ∈ l, isPySpace c = false) →
      (l.length % 2 = 1 ∨ ∃ c ∈ l, isHexChar c = false) →
      fromhexAux l = none := by
  induction n with
  | zero =>
    intro l hl _ h
    have hnil : l = [] := List.eq_nil_of_length_eq_zero (Nat.le_zero.mp hl)
    subst hnil
    rcases h with h | ⟨c, hc, _⟩
    · simp at h
    · simp at hc
  | succ n ih =>
    intro l hl hns h
    match l with
    | [] =>
      rcases h with h | ⟨c, hc, _⟩
      · simp at h
      · simp at hc
    | c :: rest =>
      have hc : isPySpace c = false := hns c (List.mem_cons_self c rest)
      cases hv : hexDigitVal c with
      | none => simp [fromhexAux, hc, hv]
      | some hi =>
        have hchex : isHexChar c = true := by simp [isHexChar, hv]
        match rest with
        | [] => simp [fromhexAux, hc, hv]
        | c2 :: rest2 =>
          have hc2 : isPySpace c2 = false :=
            hns c2 (List.mem_cons_of_mem c (List.mem_cons_self c2 rest2))
          cases hv2 : hexDigitVal c2 with
          | none => simp [fromhexAux, hc, hv, hv2]
          | some lo =>
            have hc2hex : isHexChar c2 = true := by simp [isHexChar, hv2]
            have hrec : fromhexAux rest2 = none := by
              apply ih rest2
              · simp at hl; omega
              · intro d hd
                exact hns d (List.mem_cons_of_mem c (List.mem_cons_of_mem c2 hd))
              · rcases h with hodd | ⟨d, hd, hdno⟩
                · left; simp at hodd ⊢; omega
                · right
                  refine ⟨d, ?_, hdno⟩
                  rcases List.mem_cons.mp hd with rfl | hd'
                  · rw [hchex] at hdno; cases hdno
                  · rcases List.mem_cons.mp hd' with rfl | hd''
                    · rw [hc2hex] at hdno; cases hdno
                    · exact hd''
            simp [fromhexAux, hc, hv, hv2, hrec]

/-- `bytes.fromhex` succeeds on an even-length all-hex character list
and produces one byte per digit pair (fuel-indexed form). -/
theorem fromhexAux_evenHex_aux (n : Nat) :
    ∀ l : List Char, l.length ≤ n → (∀ c ∈ l, isHexChar c = true) →
      l.length % 2 = 0 →
      ∃ bs, fromhexAux l = some bs ∧ bs.length = l.length / 2 := by
  induction n with
  | zero =>
    intro l hl _ _
    have hnil : l = [] := List.eq_nil_of_length_eq_zero (Nat.le_zero.mp hl)
    subst hnil
    exact ⟨[], rfl, rfl⟩
  | succ n ih =>
    intro l hl hhex heven
    match l with
    | [] => exact ⟨[], rfl, rfl⟩
    | [c] => simp at heven
    | c :: c2 :: rest2 =>
      have hchex : isHexChar c = true := hhex c (by simp)
      have hc2hex : isHexChar c2 = true := hhex c2 (by simp)
      have hc : isPySpace c = false := isHexChar_not_pyspace hchex
      obtain ⟨hi, hv⟩ := Option.isSome_iff_exists.mp hchex
      obtain ⟨lo, hv2⟩ := Option.isSome_iff_exists.mp hc2hex
      obtain ⟨bs, hbs, hlen⟩ := ih rest2 (by simp at hl; omega)
        (fun d hd => hhex d (by simp [hd])) (by simp at heven ⊢; omega)
      refine ⟨(16 * hi + lo) :: bs, ?_, ?_⟩
      · simp [fromhexAux, hc, hv, hv2, hbs]
      · simp [hlen]; omega

/-- `bytes.fromhex` on an even-length hex string: succeeds, one byte per
digit pair. -/
theorem fromhex_evenHex {s : String} (h : EvenHex s) :
    ∃ bs, fromhex s = some bs ∧ bs.length = s.length / 2 :=
  fromhexAux_evenHex_aux s.data.length s.data le_rfl h.2 h.1

/-- The field walk records exactly the bytes between the clamped initial
and final cursors, and the clamped cursor never moves backwards. -/
theorem walkFields_consumed (fmap : List (String × FieldLen)) (bytes : List Nat) :
    ∀ c : Nat,
      (((walkFields fmap bytes c).1.map (fun e => e.data.length)).sum =
        min (walkFields fmap bytes c).2 bytes.length - min c bytes.length) ∧
      min c bytes.length ≤ min (walkFields fmap bytes c).2 bytes.length := by
  induction fmap with
  | nil => intro c; simp [walkFields]
  | cons fd rest ih =>
    intro c
    obtain ⟨fname, flen⟩ := fd
    cases flen with
    | remainder =>
      by_cases hd : bytes.drop c = []
      · have hc : bytes.length ≤ c := List.drop_eq_nil_iff.mp hd
        simp only [walkFields, hd, if_pos rfl]
        constructor
        · simp; omega
        · simp
      · have hc : c < bytes.length := by
          by_contra hcon
          exact hd (List.drop_eq_nil_iff.mpr (by omega))
        obtain ⟨ihsum, ihmono⟩ := ih bytes.length
        simp only [walkFields, if_neg hd]
        have hdl : (bytes.drop c).length = bytes.length - c :=
          List.length_drop c bytes
        constructor
        · simp [hdl, ihsum]; omega
        · simp; omega
    | fixed n =>
      by_cases hd : (bytes.drop c).take n = []
      · have hdn : n = 0 ∨ bytes.length ≤ c := by
          rcases List.take_eq_nil_iff.mp hd with h0 | hnil
          · exact Or.inl h0
          · exact Or.inr (List.drop_eq_nil_iff.mp hnil)
        simp only [walkFields, hd, if_pos rfl]
        constructor
        · simp; omega
        · simp
      · obtain ⟨ihsum, ihmono⟩ := ih (c + n)
        simp only [walkFields, if_neg hd]
        have htl : ((bytes.drop c).take n).length = min n (bytes.length - c) := by
          rw [List.length_take, List.length_drop]
        have hne : 0 < ((bytes.drop c).take n).length :=
          List.length_pos.mpr hd
        constructor
        · simp [htl, ihsum]
          rw [htl] at hne
          omega
        · simp
          omega

/-- Fields reached with the cursor at or past the end of the buffer
record nothing and leave the final cursor at or past the end. -/
theorem walkFields_past_end (rest : List (String × FieldLen)) (bytes : List Nat)
    (c : Nat) (hc : bytes.length ≤ c) :
    (walkFields rest bytes c).1 = [] ∧ bytes.length ≤ (walkFields rest bytes c).2 := by
  match rest with
  | [] => exact ⟨rfl, hc⟩
  | (g, flen) :: rest2 =>
    have hdrop : bytes.drop c = [] := List.drop_eq_nil_iff.mpr hc
    cases flen with
    | remainder => simp [walkFields, hdrop]
    | fixed m => simp [walkFields, hdrop]; omega

/-! ## Claims -/

/-- C1 (counterexample): on a guard whose release function fails (status
7), the first `release()` raises *without* setting the state to Closed,
and a second `release()` invokes the release function again and raises
the same failure again — refuting the claim that the state is set to
Closed unconditionally. -/
theorem C1_counterexample :
    (HandleManager.close ⟨some 5, false⟩ (fun _ => 7)).state.closed = false ∧
    (HandleManager.close ⟨some 5, false⟩ (fun _ => 7)).error = some 7 ∧
    ((HandleManager.close ⟨some 5, false⟩ (fun _ => 7)).state.close (fun _ => 7)).calls = 1 ∧
    ((HandleManager.close ⟨some 5, false⟩ (fun _ => 7)).state.close (fun _ => 7)).error = some 7 :=
  ⟨rfl, rfl, rfl, rfl⟩

/-- C1 (amended): when the bound release function reports a failure on
the first `release()` call, the error is surfaced and the guard's state
is left unchanged (not Closed), so a second `release()` call invokes the
release function again and surfaces the same failure again; the state
becomes Closed only when the release function succeeds. -/
theorem C1_amended_release_failure_leaves_open (m : HandleManager) (v : Nat)
    (cf : Nat → Int) (h1 : m.handle = some v) (h2 : v ≠ 0) (h3 : m.closed = false)
    (h4 : cf v ≠ 0) :
    m.close cf = ⟨m, some (cf v), 1⟩ ∧
    (m.close cf).state.close cf = ⟨m, some (cf v), 1⟩ := by
  obtain ⟨ho, hcl⟩ := m
  simp only at h1 h3
  subst h1
  subst h3
  have h : HandleManager.close ⟨some v, false⟩ cf = ⟨⟨some v, false⟩, some (cf v), 1⟩ := by
    simp [HandleManager.close, h2, h4]
  refine ⟨h, ?_⟩
  rw [h]
  exact h

/-- C1 (witness): the amended theorem applied at a concrete failing
guard. -/
theorem C1_witness :
    HandleManager.close ⟨some 5, false⟩ (fun _ => 7) = ⟨⟨some 5, false⟩, some 7, 1⟩ ∧
    (HandleManager.close ⟨some 5, false⟩ (fun _ => 7)).state.close (fun _ => 7) =
      ⟨⟨some 5, false⟩, some 7, 1⟩ :=
  C1_amended_release_failure_leaves_open ⟨some 5, false⟩ 5 (fun _ => 7) rfl
    (by decide) rfl (by decide)

/-- C2 (code bug evidence): with the DLL loaded and the driver reporting
status 0 and zero devices, `find_devices` returns the empty list without
ever calling `ni845xCloseFindDeviceHandle` (the enumeration handle
leaks), whereas with one device reported the handle is closed; with the
DLL not loaded the empty list is returned. -/
theorem C2_zero_devices_leaks_find_handle :
    (find_devices true ⟨0, 0, "X", fun _ => 0, fun _ => "", 0⟩).closeCalled = false ∧
    (find_devices true ⟨0, 0, "X", fun _ => 0, fun _ => "", 0⟩).result = Except.ok [] ∧
    (find_devices false ⟨0, 0, "X", fun _ => 0, fun _ => "", 0⟩).closeCalled = false ∧
    (find_devices false ⟨0, 0, "X", fun _ => 0, fun _ => "", 0⟩).result = Except.ok [] ∧
    (find_devices true ⟨0, 1, "X", fun _ => 0, fun _ => "", 0⟩).closeCalled = true :=
  ⟨rfl, rfl, rfl, rfl, rfl⟩

/-- C4: on the Simulated backend, after `open_device` every transfer of a
byte sequence `b` returns exactly `reverse b`, and calling `spi_transfer`
on a handler whose device is not open fails with the connection error. -/
theorem C4_simulated_transfer_reverse (m : MockHardwareHandler) (name : String)
    (b : List Nat) :
    ((m.open_device name).1.spi_transfer b = Except.ok b.reverse) ∧
    (m.is_open = false →
      m.spi_transfer b = Except.error "No device is currently open.") := by
  constructor
  · simp [MockHardwareHandler.open_device, MockHardwareHandler.spi_transfer]
  · intro h
    simp [MockHardwareHandler.spi_transfer, h]

/-- C4 (witness): transferring `DE AD BE EF` on an opened simulated
handler yields `EF BE AD DE`; transferring while closed errors. -/
theorem C4_witness :
    (MockHardwareHandler.spi_transfer
        ((MockHardwareHandler.open_device ⟨false⟩ "SIM-845x").1)
        [222, 173, 190, 239] = Except.ok [239, 190, 173, 222]) ∧
    (MockHardwareHandler.spi_transfer ⟨false⟩ [222, 173, 190, 239] =
      Except.error "No device is currently open.") :=
  ⟨(C4_simulated_transfer_reverse ⟨false⟩ "SIM-845x" [222, 173, 190, 239]).1,
   (C4_simulated_transfer_reverse ⟨false⟩ "SIM-845x" [222, 173, 190, 239]).2 rfl⟩

/-- C7: for every write sequence `w`, a successful `spi_write_read`
returns the driver's read buffer truncated to the reported count, so the
result length is `min (reported count) (len w)` and never exceeds
`len w`. -/
theorem C7_read_buffer_truncation (d : SpiDriver) (w : List Nat)
    (h : d.status = 0) :
    ∃ r, spi_write_read d w = Except.ok r ∧
      r.length = min d.reportedCount w.length ∧ r.length ≤ w.length := by
  have hs : spi_write_read d w =
      Except.ok (((List.range w.length).map d.readByte).take d.reportedCount) := by
    simp [spi_write_read, h]
  refine ⟨_, hs, ?_, ?_⟩
  · rw [List.length_take, List.length_map, List.length_range]
  · rw [List.length_take, List.length_map, List.length_range]
    omega

/-- C7 (witness): a driver reporting 5 bytes read against a 3-byte write
returns 3 bytes. -/
theorem C7_witness :
    ∃ r, spi_write_read ⟨0, 5, fun i => i + 10⟩ [1, 2, 3] = Except.ok r ∧
      r.length = min 5 3 ∧ r.length ≤ 3 :=
  C7_read_buffer_truncation ⟨0, 5, fun i => i + 10⟩ [1, 2, 3] rfl

/-- C8: when the first `release()` succeeds (raises no error), a second
`release()` is a no-op: it leaves the state unchanged, raises no error,
invokes the release function zero times, and the two calls together
invoke it at most once. -/
theorem C8_release_idempotent_on_success (m : HandleManager) (cf : Nat → Int)
    (h : (m.close cf).error = none) :
    (m.close cf).state.close cf = ⟨(m.close cf).state, none, 0⟩ ∧
    (m.close cf).calls ≤ 1 := by
  obtain ⟨ho, hcl⟩ := m
  match ho, hcl with
  | none, false => exact ⟨rfl, by simp [HandleManager.close]⟩
  | none, true => exact ⟨rfl, by simp [HandleManager.close]⟩
  | some v, true => exact ⟨rfl, by simp [HandleManager.close]⟩
  | some v, false =>
    by_cases hv : v = 0
    · subst hv
      exact ⟨rfl, by simp [HandleManager.close]⟩
    · by_cases hst : cf v = 0
      · have h1 : HandleManager.close ⟨some v, false⟩ cf = ⟨⟨none, true⟩, none, 1⟩ := by
          simp [HandleManager.close, hv, hst]
        rw [h1]
        exact ⟨rfl, le_refl 1⟩
      · exfalso
        have h1 : HandleManager.close ⟨some v, false⟩ cf =
            ⟨⟨some v, false⟩, some (cf v), 1⟩ := by
          simp [HandleManager.close, hv, hst]
        rw [h1] at h
        simp at h

/-- C8 (witness): a guard whose release succeeds, released twice. -/
theorem C8_witness :
    (HandleManager.close ⟨some 5, false⟩ (fun _ => 0)).state.close (fun _ => 0) =
      ⟨(HandleManager.close ⟨some 5, false⟩ (fun _ => 0)).state, none, 0⟩ ∧
    (HandleManager.close ⟨some 5, false⟩ (fun _ => 0)).calls ≤ 1 :=
  C8_release_idempotent_on_success ⟨some 5, false⟩ (fun _ => 0) rfl

/-- C10: decoding the empty string returns the fixed "No data to parse."
result without raising, before any byte conversion or opcode lookup is
reached, even though the empty string is valid even-length hex encoding
zero bytes. -/
theorem C10_empty_string_fixed_result (dir : Bool) :
    parse_hex_data "" dir = Except.ok ParseResult.noData ∧ fromhex "" = some [] :=
  ⟨rfl, rfl⟩

/-- C5 (counterexample): the strings `"AB CD"` and `"AB\tCD"` are
malformed by the claim's definition (odd length, and each contains a
non-hex character), yet `bytes.fromhex` accepts both — it skips ASCII
whitespace between digit pairs — so a connected façade sends the command
to hardware and appends a history entry, refuting the claim for every
whitespace-containing input of this family. -/
theorem C5_counterexample :
    ("AB CD".length % 2 = 1) ∧
    (∃ c ∈ "AB CD".data, isHexChar c = false) ∧
    fromhex "AB CD" = some [171, 205] ∧
    ("AB\tCD".length % 2 = 1) ∧
    (∃ c ∈ "AB\tCD".data, isHexChar c = false) ∧
    fromhex "AB\tCD" = some [171, 205] ∧
    send_spi_command (fun b => some b.reverse) ⟨[], "SIM-845x", true, [], ""⟩ "AB CD" =
      (⟨[], "SIM-845x", true, [("AB CD", "CDAB")], ""⟩, true) ∧
    send_spi_command (fun b => some b.reverse) ⟨[], "SIM-845x", true, [], ""⟩ "AB\tCD" =
      (⟨[], "SIM-845x", true, [("AB\tCD", "CDAB")], ""⟩, true) := by
  refine ⟨by decide, by decide, rfl, by decide, by decide, rfl, rfl, rfl⟩

/-- C5 (amended): for every malformed hex command string containing no
ASCII whitespace (odd length or containing a non-hex character),
decoding fails (`ValueError` from `bytes.fromhex`, the `InvalidHexError`
of the spec) and the façade rejects the command before any hardware
call: the state is unchanged and no history entry is appended. Strings
containing ASCII whitespace (space, tab, LF, VT, FF, CR) between digit
pairs are accepted by `bytes.fromhex` and are exempt. -/
theorem C5_amended_spacefree_malformed_rejected (s : String) (st : ViewModelState)
    (tf : List Nat → Option (List Nat)) (hns : ∀ c ∈ s.data, isPySpace c = false)
    (h : s.length % 2 = 1 ∨ ∃ c ∈ s.data, isHexChar c = false) :
    fromhex s = none ∧ send_spi_command tf st s = (st, false) := by
  have hf : fromhex s = none :=
    fromhexAux_eq_none_aux s.data.length s.data le_rfl hns h
  refine ⟨hf, ?_⟩
  cases hcase : st.isConnected with
  | false => simp [send_spi_command, hcase]
  | true => simp [send_spi_command, hcase, hf]

/-- C5 (witness): the odd-length string `"ABC"` is rejected by a
connected façade with no state change and no hardware call. -/
theorem C5_witness :
    fromhex "ABC" = none ∧
    send_spi_command (fun _ => none) ⟨[], "", true, [], ""⟩ "ABC" =
      (⟨[], "", true, [], ""⟩, false) :=
  C5_amended_spacefree_malformed_rejected "ABC" ⟨[], "", true, [], ""⟩ (fun _ => none)
    (by decide) (Or.inl (by decide))

/-- C6: failed operations leave prior observable state unchanged — a
transfer whose hardware call fails (`None` from the handler) leaves the
whole view-model state as it was, and an attempted open that fails
leaves the connected flag false with every other field unchanged. -/
theorem C6_failed_ops_preserve_state (tf : List Nat → Option (List Nat))
    (st : ViewModelState) (s : String) (bs : List Nat) (openResult : Bool) :
    (fromhex s = some bs → tf bs = none →
      send_spi_command tf st s = (st, st.isConnected)) ∧
    (openResult = false → st.selectedDevice ≠ "" →
      connect_device openResult st = { st with isConnected := false }) := by
  constructor
  · intro hf ht
    cases hcase : st.isConnected with
    | false => simp [send_spi_command, hcase]
    | true => simp [send_spi_command, hcase, hf, ht]
  · intro ho hsel
    subst ho
    simp [connect_device, hsel]

/-- C6 (witness): a failing transfer and a failing open on a concrete
connected state. -/
theorem C6_witness :
    send_spi_command (fun _ => none) ⟨[], "dev", true, [], ""⟩ "01" =
      (⟨[], "dev", true, [], ""⟩, true) ∧
    connect_device false ⟨[], "dev", true, [], ""⟩ = ⟨[], "dev", false, [], ""⟩ := by
  have h := C6_failed_ops_preserve_state (fun _ => none) ⟨[], "dev", true, [], ""⟩
    "01" [1] false
  exact ⟨h.1 rfl rfl, h.2 rfl (by decide)⟩

/-- C9 (counterexample): for input `"01"` (command direction), the
schema's second field `Dummy Byte` (declared length 1) is reached with
zero bytes remaining — its declared length exceeds the remainder — yet
the breakdown omits that field entirely instead of recording it with the
actual remaining length 0. -/
theorem C9_counterexample :
    (lookupDef "01").fields =
      [("Command", FieldLen.fixed 1), ("Dummy Byte", FieldLen.fixed 1)] ∧
    parse_hex_data "01" true =
      Except.ok (ParseResult.breakdown "Read Status Register" true
        [⟨"Command", [1]⟩] none) :=
  ⟨rfl, rfl⟩

/-- C9 (amended): when a finite-length field is reached with at least
one byte remaining and its declared length exceeds the remaining count,
the walk records that field with the actual (shorter) remaining length,
records no further fields, and leaves the cursor at or past the buffer
end so that no "unparsed data" entry is appended; with zero bytes
remaining the field is omitted entirely. -/
theorem C9_amended_truncated_field (bytes : List Nat) (c : Nat) (fname : String)
    (n : Nat) (rest : List (String × FieldLen)) (h1 : c < bytes.length)
    (h2 : bytes.length < c + n) :
    (walkFields ((fname, FieldLen.fixed n) :: rest) bytes c).1 =
      [⟨fname, bytes.drop c⟩] ∧
    (bytes.drop c).length = bytes.length - c ∧
    bytes.length ≤ (walkFields ((fname, FieldLen.fixed n) :: rest) bytes c).2 := by
  have htake : (bytes.drop c).take n = bytes.drop c := by
    apply List.take_of_length_le
    rw [List.length_drop]
    omega
  have hne : ¬bytes.drop c = [] := by
    rw [List.drop_eq_nil_iff]
    omega
  have hrest := walkFields_past_end rest bytes (c + n) (by omega)
  refine ⟨?_, List.length_drop c bytes, ?_⟩
  · simp only [walkFields, htake, if_neg hne]
    rw [hrest.1]
  · simp only [walkFields, htake, if_neg hne]
    exact hrest.2

/-- C9 (witness): a 5-byte field starting at offset 1 of a 3-byte buffer
is recorded with the 2 remaining bytes; the following field is dropped
and the final cursor is past the end. -/
theorem C9_witness :
    (walkFields [("F", FieldLen.fixed 5), ("G", FieldLen.fixed 1)] [1, 2, 3] 1).1 =
      [⟨"F", [2, 3]⟩] ∧
    ([1, 2, 3].drop 1).length = 2 ∧
    (3 : Nat) ≤ (walkFields [("F", FieldLen.fixed 5), ("G", FieldLen.fixed 1)] [1, 2, 3] 1).2 :=
  C9_amended_truncated_field [1, 2, 3] 1 "F" 5 [("G", FieldLen.fixed 1)]
    (by decide) (by decide)

/-- C3 (counterexample): for the even-length hex string `"0600"` in the
response direction, the selected field list is empty, so `parse_hex_data`
returns the early "No response fields defined." result: 0 of the 2 bytes
are consumed yet no "unparsed data" entry appears — refuting the claimed
equivalence. -/
theorem C3_counterexample :
    EvenHex "0600" ∧
    fromhex "0600" = some [6, 0] ∧
    parse_hex_data "0600" false = Except.ok (ParseResult.noFields "Write Enable") ∧
    (ParseResult.noFields "Write Enable").consumed < 2 ∧
    (ParseResult.noFields "Write Enable").hasUnparsed = false := by
  refine ⟨by decide, rfl, rfl, by decide, rfl⟩

/-- C3 (amended): for every even-length hex string and direction, the
decoder consumes at most the total byte count, and the breakdown ends
with an "unparsed data" entry iff the consumed count is strictly below
the total *and* the selected field list is nonempty (the empty-field-map
early return, and the empty string, produce no unparsed entry even when
bytes remain). -/
theorem C3_amended_consumed_unparsed (s : String) (dir : Bool) (h : EvenHex s) :
    ∃ bs r, fromhex s = some bs ∧ parse_hex_data s dir = Except.ok r ∧
      r.consumed ≤ bs.length ∧
      (r.hasUnparsed = true ↔
        (s ≠ "" ∧ selectedFieldMap s dir ≠ [] ∧ r.consumed < bs.length)) := by
  obtain ⟨bs, hbs, _⟩ := fromhex_evenHex h
  by_cases hs : s = ""
  · subst hs
    have hb : bs = [] := by
      have h0 : fromhex "" = some [] := rfl
      rw [h0] at hbs
      exact (Option.some.inj hbs).symm
    subst hb
    exact ⟨[], ParseResult.noData, hbs, rfl, le_refl 0, by simp [ParseResult.hasUnparsed]⟩
  · by_cases hempty : selectedFieldMap s dir = []
    · refine ⟨bs, ParseResult.noFields (lookupDef (upperStr (s.take 2))).name, hbs,
        ?_, Nat.zero_le _, ?_⟩
      · simp only [parse_hex_data, if_neg hs, hbs]
        have hfm : (if dir then (lookupDef (upperStr (s.take 2))).fields
            else (lookupDef (upperStr (s.take 2))).response) = [] := by
          simpa [selectedFieldMap] using hempty
        simp [hfm]
      · simp [ParseResult.hasUnparsed, hempty]
    · obtain ⟨hsum, hmono⟩ := walkFields_consumed (selectedFieldMap s dir) bs 0
      refine ⟨bs,
        ParseResult.breakdown (lookupDef (upperStr (s.take 2))).name dir
          (walkFields (selectedFieldMap s dir) bs 0).1
          (if (walkFields (selectedFieldMap s dir) bs 0).2 < bs.length then
            some (bs.drop (walkFields (selectedFieldMap s dir) bs 0).2) else none),
        hbs, ?_, ?_, ?_⟩
      · simp only [parse_hex_data, if_neg hs, hbs]
        have hfm : (if dir then (lookupDef (upperStr (s.take 2))).fields
            else (lookupDef (upperStr (s.take 2))).response) = selectedFieldMap s dir := by
          simp [selectedFieldMap]
        rw [hfm, if_neg hempty]
      · simp only [ParseResult.consumed]
        omega
      · by_cases hlt : (walkFields (selectedFieldMap s dir) bs 0).2 < bs.length
        · have hc : (((walkFields (selectedFieldMap s dir) bs 0).1.map
              (fun e => e.data.length)).sum) < bs.length := by omega
          simp [ParseResult.hasUnparsed, ParseResult.consumed, hlt, hs, hempty, hc]
        · have hc : ¬(((walkFields (selectedFieldMap s dir) bs 0).1.map
              (fun e => e.data.length)).sum) < bs.length := by omega
          simp [ParseResult.hasUnparsed, ParseResult.consumed, hlt, hc]

/-- C3 (witness): the amended claim instantiated at `"010000"` in the
command direction (two fields consume two of the three bytes, so an
unparsed entry appears). -/
theorem C3_witness :
    ∃ bs r, fromhex "010000" = some bs ∧
      parse_hex_data "010000" true = Except.ok r ∧
      r.consumed ≤ bs.length ∧
      (r.hasUnparsed = true ↔
        ("010000" ≠ "" ∧ selectedFieldMap "010000" true ≠ [] ∧ r.consumed < bs.length)) :=
  C3_amended_consumed_unparsed "010000" true (by decide)

end Prism2
